import Mathlib

/-!
Verification development for the distributed KMeans orchestration layer
(`cuml/dask/cluster/kmeans.py`): data-to-worker assignment, communicator
session lifecycle, fan-out/fan-in fit dispatch with exception aggregation,
deterministic model selection, and the score reduction.

Helpers that live elsewhere in the repository (`DistributedDataHandler`,
`CommsContext`, `raise_exception_from_futures`, the per-worker engine) are
modelled from the specification; the orchestration in `kmeans.py` is
translated directly.
-/

namespace CumlKMeans

/-- A shard of the sharded dataset: an opaque block of input rows resident
on exactly one worker.  Rows are modelled as integer coordinate vectors. -/
structure Shard where
  owner : Nat
  rows  : List (List Int)
deriving Repr, DecidableEq

/-- A locally fitted model returned by the per-worker engine: its centroid
matrix. -/
structure LocalModel where
  cluster_centers_ : List (List Int)
deriving Repr, DecidableEq

/-- Hyperparameters forwarded opaquely (`**self.kwargs` in the source). -/
abbrev Kwargs := List (String × Int)

/-- Helper for `firstOccurrences`: keep the elements not seen before. -/
def firstOccurrencesAux (seen : List Nat) : List Nat → List Nat
  | [] => []
  | w :: ws =>
      if w ∈ seen then firstOccurrencesAux seen ws
      else w :: firstOccurrencesAux (w :: seen) ws

/-- The list of workers in order of first appearance among shard owners,
without duplicates (Python dict insertion order for `worker_to_parts`). -/
def firstOccurrences (l : List Nat) : List Nat :=
  firstOccurrencesAux [] l

/-- Errors surfaced by the orchestration layer. -/
inductive KMeansError where
  /-- A worker's weight shards do not align with its feature shards. -/
  | shardAlignment
  /-- Aggregated per-worker fit failures (all causes, in worker order). -/
  | distributedFit (causes : List String)
  /-- Indexing an empty future list (`kmeans_fit[0]` on no shards). -/
  | indexError
deriving Repr, DecidableEq

/-- Per-worker alignment check.  Modelled from the spec: "each worker's
weight shards must align one-to-one and row-count-exact with that worker's
feature shards". -/
def alignedFor (X W : List Shard) (w : Nat) : Bool :=
  let xs := X.filter (fun s => s.owner == w)
  let ws := W.filter (fun s => s.owner == w)
  xs.length == ws.length &&
    (xs.zip ws).all (fun p => p.1.rows.length == p.2.rows.length)

/-- The weight dataset aligns with the feature dataset on every worker that
owns a shard of either. -/
def aligned (X W : List Shard) : Bool :=
  (firstOccurrences ((X ++ W).map Shard.owner)).all (alignedFor X W)

/-- The shards a worker owns, paired positionally with its weight shards
when weights are supplied. -/
def partsFor (X : List Shard) (sample_weight : Option (List Shard)) (w : Nat) :
    List (Shard × Option Shard) :=
  let xs := X.filter (fun s => s.owner == w)
  match sample_weight with
  | none => xs.map (fun x => (x, none))
  | some W => (xs.zip (W.filter (fun s => s.owner == w))).map
      (fun p => (p.1, some p.2))

/-- Modelled from the spec: `DistributedDataHandler` (from
`cuml.dask.common.input_utils`, not under `src/`) — the Partition Assigner.
It groups shards by owning worker preserving physical placement, records
the input datatype, and exposes `multiple` (whether the input was an
`(X, sample_weight)` tuple). -/
structure DistributedDataHandler where
  worker_to_parts : List (Nat × List (Shard × Option Shard))
  workers : List Nat
  datatype : String
  multiple : Bool
deriving Repr, DecidableEq

/-- Modelled from the spec: `DistributedDataHandler.create` — builds the
worker assignment, failing with `ShardAlignmentError` when supplied weight
shards do not align per-worker with the feature shards. -/
def DistributedDataHandler.create (X : List Shard)
    (sample_weight : Option (List Shard)) :
    Except KMeansError DistributedDataHandler :=
  match sample_weight with
  | none =>
      let ws := firstOccurrences (X.map Shard.owner)
      .ok { worker_to_parts := ws.map (fun w => (w, partsFor X none w)),
            workers := ws, datatype := "cupy", multiple := false }
  | some W =>
      if aligned X W then
        let ws := firstOccurrences (X.map Shard.owner)
        .ok { worker_to_parts := ws.map (fun w => (w, partsFor X (some W) w)),
              workers := ws, datatype := "cupy", multiple := true }
      else .error .shardAlignment

/-- Modelled from the spec: `concatenate` (from
`cuml.dask.common.input_utils`, not under `src/`) — concatenates a worker's
shard blocks into one local block. -/
def concatenate (blocks : List (List (List Int))) : List (List Int) :=
  blocks.flatten

/-- Events recorded by a `fit` round, in program order. -/
inductive Event where
  /-- Session opening: `comms.init(workers=data.workers)`. -/
  | commsInit (sessionId : Nat) (workers : List Nat)
  /-- Task submission: `client.submit(KMeans._func_fit, ..., workers=[wf[0]])`. -/
  | submitTask (worker : Nat) (sessionId : Nat)
  /-- Barrier: `wait(kmeans_fit)`, the fan-in over all futures. -/
  | waitAll (n : Nat)
  /-- Inspection: `raise_exception_from_futures(kmeans_fit)`. -/
  | raiseCheck
  /-- Session closing: `comms.destroy()`. -/
  | commsDestroy (sessionId : Nat)
  /-- Result read: `kmeans_fit[0].result()`. -/
  | readFirstResult
deriving Repr, DecidableEq

/-- Whether an event closes the given session. -/
def Event.isDestroy (sid : Nat) : Event → Bool
  | .commsDestroy s => s == sid
  | _ => false

/-- Whether an event is a task submission. -/
def Event.isSubmit : Event → Bool
  | .submitTask _ _ => true
  | _ => false

/-- Whether an event is the fan-in barrier. -/
def Event.isWait : Event → Bool
  | .waitAll _ => true
  | _ => false

/-- Whether an event opens a session. -/
def Event.isInit : Event → Bool
  | .commsInit _ _ => true
  | _ => false

/-- Whether an event inspects results (`raise_exception_from_futures` or
reading a future's result). -/
def Event.isInspect : Event → Bool
  | .raiseCheck => true
  | .readFirstResult => true
  | _ => false

/-- How many events of the trace close the given session. -/
def closeCount (trace : List Event) (sid : Nat) : Nat :=
  (trace.filter (Event.isDestroy sid)).length

/-- The per-worker fit engine (`cuml.cluster.kmeans_mg.KMeansMG`, an
external collaborator): given the session id, output datatype, the
concatenated local data, optional concatenated weights and the
hyperparameters, it produces a local model or fails. -/
abbrev EngineFit :=
  Nat → String → List (List Int) → Option (List (List Int)) → Kwargs →
    Except String LocalModel

/-- Translated from the source, `KMeans._func_fit`: unpack the worker's
shard list (separating weights when present), concatenate, and run the
per-worker engine. -/
def KMeans._func_fit (engine : EngineFit) (sessionId : Nat)
    (objs : List (Shard × Option Shard)) (datatype : String)
    (has_weights : Bool) (kwargs : Kwargs) : Except String LocalModel :=
  if !has_weights then
    engine sessionId datatype (concatenate (objs.map (fun o => o.1.rows)))
      none kwargs
  else
    engine sessionId datatype (concatenate (objs.map (fun o => o.1.rows)))
      (some (concatenate (objs.filterMap (fun o => o.2.map Shard.rows))))
      kwargs

/-- Extraction of the failure carried by a settled future, if any. -/
def errOf : Except String LocalModel → Option String
  | .error e => some e
  | .ok _ => none

/-- Modelled from the spec: `raise_exception_from_futures` (from
`cuml.dask.common.utils`, not under `src/`) — "collects all failures (not
just the first) and raises a single aggregated error". -/
def raise_exception_from_futures (futures : List (Except String LocalModel)) :
    Except KMeansError Unit :=
  match futures.filterMap errOf with
  | [] => .ok ()
  | e :: es => .error (.distributedFit (e :: es))

/-- The estimator's mutable state (`self` in the source). -/
structure KMeans where
  kwargs : Kwargs
  datatype : Option String
  local_model : Option LocalModel
  cluster_centers_ : Option (List (List Int))
deriving Repr, DecidableEq

/-- What one `client.submit` call in `fit` carries: the task arguments and
the placement pin (`workers=[wf[0]]`). -/
structure Submission where
  sessionId : Nat
  parts : List (Shard × Option Shard)
  datatype : String
  has_weights : Bool
  kwargs : Kwargs
  pinnedWorkers : List Nat
deriving Repr, DecidableEq

/-- The list of submissions made by the comprehension in `fit`
(lines 147–155 of the source), in worker-assignment order. -/
def fitSubmissions (data : DistributedDataHandler) (sid : Nat)
    (kwargs : Kwargs) : List Submission :=
  data.worker_to_parts.map (fun wf =>
    { sessionId := sid, parts := wf.2, datatype := data.datatype,
      has_weights := data.multiple, kwargs := kwargs,
      pinnedWorkers := [wf.1] })

/-- The per-worker task outcomes, in worker-assignment order: the value
each future of `kmeans_fit` settles to. -/
def fitFutureValues (engineFit : Nat → EngineFit)
    (data : DistributedDataHandler) (sid : Nat) (kwargs : Kwargs) :
    List (Except String LocalModel) :=
  data.worker_to_parts.map (fun wf =>
    KMeans._func_fit (engineFit wf.1) sid wf.2 data.datatype data.multiple
      kwargs)

/-- The observable outcome of one `fit` call: the event trace, the state of
`self` when the call returns or raises, and the raised error if any. -/
structure FitOutcome where
  trace : List Event
  self : KMeans
  result : Except KMeansError Unit
deriving Repr

/-- Translated from the source, `KMeans.fit`.  Here `engineFit w` is the engine
as it behaves on worker `w`; `arrival w` is the settlement time of worker
`w`'s future (the schedule the barrier observes — threaded through the
future list, never consulted by the dispatch logic). -/
def KMeans.fit (self : KMeans) (X : List Shard)
    (sample_weight : Option (List Shard)) (engineFit : Nat → EngineFit)
    (sid : Nat) (arrival : Nat → Nat) : FitOutcome :=
  match DistributedDataHandler.create X sample_weight with
  | .error e => { trace := [], self := self, result := .error e }
  | .ok data =>
    let self1 := { self with datatype := some data.datatype }
    let kmeans_fit : List (Nat × Except String LocalModel) :=
      data.worker_to_parts.map (fun wf =>
        (arrival wf.1,
         KMeans._func_fit (engineFit wf.1) sid wf.2 data.datatype
           data.multiple self.kwargs))
    let trace0 : List Event :=
      Event.commsInit sid data.workers ::
        (data.worker_to_parts.map (fun wf => Event.submitTask wf.1 sid)) ++
          [Event.waitAll kmeans_fit.length, Event.raiseCheck]
    match raise_exception_from_futures (kmeans_fit.map Prod.snd) with
    | .error e => { trace := trace0, self := self1, result := .error e }
    | .ok _ =>
      let trace1 := trace0 ++ [Event.commsDestroy sid]
      match (kmeans_fit.map Prod.snd).head? with
      | none =>
          { trace := trace1 ++ [Event.readFirstResult], self := self1,
            result := .error .indexError }
      | some (.error e) =>
          { trace := trace1 ++ [Event.readFirstResult], self := self1,
            result := .error (.distributedFit [e]) }
      | some (.ok m) =>
          let self2 := { self1 with
            local_model := some m,
            cluster_centers_ := some m.cluster_centers_ }
          { trace := trace1 ++ [Event.readFirstResult], self := self2,
            result := .ok () }

/-- Squared Euclidean distance between a row and a centroid. -/
def sqDist (x c : List Int) : Int :=
  ((x.zip c).map (fun p => (p.1 - p.2) ^ 2)).sum

/-- Squared distance from a row to its nearest centroid. -/
def minSqDist (centers : List (List Int)) (x : List Int) : Int :=
  match centers.map (fun c => sqDist x c) with
  | [] => 0
  | d :: ds => ds.foldl min d

/-- The inertia of a block of rows: the sum of squared distances to the
nearest centroid. -/
def inertia (centers : List (List Int)) (rows : List (List Int)) : Int :=
  (rows.map (fun x => minSqDist centers x)).sum

/-- Modelled from the spec: the per-worker inference engine's
`score(localModel, shard) -> partialInertia` (`cuml` single-GPU
`KMeans.score`, not under `src/`).  The sign convention is pinned by the
repository's own `test_score`, which asserts the distributed score equals
minus the total inertia: like sklearn, the engine returns the opposite of
the shard's partial inertia. -/
def engineScore (model : LocalModel) (data : Shard) : Int :=
  -(inertia model.cluster_centers_ data.rows)

/-- Translated from the source, `KMeans._score`: delegate to the local
model's score on the local data. -/
def KMeans._score (model : LocalModel) (data : Shard) : Int :=
  engineScore model data

/-- Modelled from the spec: `_run_parallel_func` (from the
`DelayedPredictionMixin` base, not under `src/`) fans out one inference
job per shard and collects the per-shard results in shard order. -/
def run_parallel_scores (model : LocalModel) (X : List Shard) : List Int :=
  X.map (fun sh => KMeans._score model sh)

/-- Translated from the source, `KMeans.score`:
`-1 * cp.sum(cp.asarray(client.compute(scores)) * -1.0)`. -/
def KMeans.score (self : KMeans) (X : List Shard) : Option Int :=
  self.local_model.map (fun m =>
    -1 * ((run_parallel_scores m X).map (fun s => s * (-1))).sum)

/-- Index of the first nearest centroid for a row. -/
def nearestIdx (centers : List (List Int)) (x : List Int) : Nat :=
  let ds := centers.map (fun c => sqDist x c)
  match ds with
  | [] => 0
  | d :: tl => ds.indexOf (tl.foldl min d)

/-- Modelled from the spec: the per-worker inference engine's
`predict(localModel, shard) -> labels` (not under `src/`): each row is
labelled with its nearest centroid. -/
def enginePredict (model : LocalModel) (data : Shard) : List Nat :=
  data.rows.map (fun x => nearestIdx model.cluster_centers_ x)

/-- Prediction, with the per-shard fan-out modelled from the spec
(one inference job per shard; the `delayed` flag selects eager or lazy
scheduling and does not change the value). -/
def KMeans.predict (self : KMeans) (X : List Shard) (delayed : Bool) :
    Option (List (List Nat)) :=
  self.local_model.map (fun m => X.map (fun sh => enginePredict m sh))

/-- Translated from the source, `KMeans.fit_predict`:
`return self.fit(X).predict(X, delayed=delayed)` — the `sample_weight`
parameter is received but never used. -/
def KMeans.fit_predict (self : KMeans) (X : List Shard)
    (sample_weight : Option (List Shard)) (delayed : Bool)
    (engineFit : Nat → EngineFit) (sid : Nat) (arrival : Nat → Nat) :
    Except KMeansError (Option (List (List Nat))) :=
  let fo := KMeans.fit self X none engineFit sid arrival
  match fo.result with
  | .error e => .error e
  | .ok _ => .ok (KMeans.predict fo.self X delayed)

/-- The trace prefix of a `fit` round that got past the partition
assigner: session opening, all submissions, the barrier, inspection. -/
def tracePrefix (data : DistributedDataHandler) (sid : Nat) : List Event :=
  Event.commsInit sid data.workers ::
    (data.worker_to_parts.map (fun wf => Event.submitTask wf.1 sid)) ++
      [Event.waitAll data.worker_to_parts.length, Event.raiseCheck]

/-- The events of a trace strictly before the first barrier. -/
def preBarrier (t : List Event) : List Event :=
  t.takeWhile (fun e => !e.isWait)

/-- The events of a trace from the first barrier on. -/
def postBarrier (t : List Event) : List Event :=
  t.dropWhile (fun e => !e.isWait)

/-! ## Example fixtures -/

/-- Example hyperparameters. -/
def exKwargs : Kwargs := [("n_clusters", 2)]

/-- A freshly constructed estimator. -/
def exSelf : KMeans :=
  { kwargs := exKwargs, datatype := none, local_model := none,
    cluster_centers_ := none }

/-- A two-worker sharded dataset: worker 0 owns two shards, worker 1 one. -/
def exX : List Shard := [⟨0, [[0], [4]]⟩, ⟨1, [[2]]⟩, ⟨0, [[6]]⟩]

/-- An engine that succeeds on every worker, returning a centroid tagged
with the worker id. -/
def engineOK : Nat → EngineFit :=
  fun w _ _ _ _ _ => .ok { cluster_centers_ := [[Int.ofNat w]] }

/-- An engine that fails on the listed workers. -/
def engineFail (bad : List Nat) : Nat → EngineFit :=
  fun w _ _ _ _ _ =>
    if w ∈ bad then .error (["w0 failed", "w1 failed", "w2 failed"].getD w "failed")
    else .ok { cluster_centers_ := [[Int.ofNat w]] }

/-- The worker assignment produced for `exX` without weights. -/
def exData : DistributedDataHandler :=
  { worker_to_parts :=
      [(0, [(⟨0, [[0], [4]]⟩, none), (⟨0, [[6]]⟩, none)]),
       (1, [(⟨1, [[2]]⟩, none)])],
    workers := [0, 1], datatype := "cupy", multiple := false }

/-- An example fitted model with the single centroid at the origin. -/
def exModel : LocalModel := { cluster_centers_ := [[0]] }

/-- An estimator that has published `exModel`. -/
def exFitted : KMeans :=
  { kwargs := exKwargs, datatype := some "cupy", local_model := some exModel,
    cluster_centers_ := some exModel.cluster_centers_ }

/-! ## Supporting lemmas -/

theorem mem_firstOccurrencesAux {a : Nat} {seen l : List Nat} :
    a ∈ firstOccurrencesAux seen l ↔ a ∈ l ∧ a ∉ seen := by
  induction l generalizing seen with
  | nil => simp [firstOccurrencesAux]
  | cons w ws ih =>
      simp only [firstOccurrencesAux]
      by_cases hw : w ∈ seen
      · rw [if_pos hw, ih]
        simp only [List.mem_cons]
        constructor
        · rintro ⟨h1, h2⟩; exact ⟨Or.inr h1, h2⟩
        · rintro ⟨h1 | h1, h2⟩
          · subst h1; exact absurd hw h2
          · exact ⟨h1, h2⟩
      · rw [if_neg hw]
        simp only [List.mem_cons, ih, List.mem_cons]
        constructor
        · rintro (rfl | ⟨h1, h2⟩)
          · exact ⟨Or.inl rfl, hw⟩
          · exact ⟨Or.inr h1, fun hs => h2 (Or.inr hs)⟩
        · rintro ⟨h1 | h1, h2⟩
          · exact Or.inl h1
          · rcases eq_or_ne a w with rfl | haw
            · exact Or.inl rfl
            · exact Or.inr ⟨h1, fun hor => hor.elim haw h2⟩

theorem mem_firstOccurrences {a : Nat} {l : List Nat} :
    a ∈ firstOccurrences l ↔ a ∈ l := by
  simp [firstOccurrences, mem_firstOccurrencesAux]

theorem nodup_firstOccurrencesAux (seen l : List Nat) :
    (firstOccurrencesAux seen l).Nodup := by
  induction l generalizing seen with
  | nil => simp [firstOccurrencesAux]
  | cons w ws ih =>
      by_cases hw : w ∈ seen
      · simpa [firstOccurrencesAux, if_pos hw] using ih seen
      · simp only [firstOccurrencesAux, if_neg hw, List.nodup_cons]
        refine ⟨fun hmem => ?_, ih (w :: seen)⟩
        exact (mem_firstOccurrencesAux.mp hmem).2 (List.mem_cons_self w seen)

theorem nodup_firstOccurrences (l : List Nat) : (firstOccurrences l).Nodup :=
  nodup_firstOccurrencesAux [] l

theorem map_snd_pair {α β : Type} (l : List α) (f : α → Nat) (g : α → β) :
    ((l.map (fun a => (f a, g a))).map Prod.snd) = l.map g := by
  simp only [List.map_map]
  rfl

theorem takeWhile_append_of_pos {α : Type} (p : α → Bool) (l₁ l₂ : List α)
    (h : ∀ a ∈ l₁, p a = true) :
    (l₁ ++ l₂).takeWhile p = l₁ ++ l₂.takeWhile p := by
  induction l₁ with
  | nil => simp
  | cons a l ih =>
      have ha := h a (List.mem_cons_self a l)
      simp only [List.cons_append, List.takeWhile_cons, ha, if_true]
      rw [ih (fun b hb => h b (List.mem_cons_of_mem a hb))]

theorem dropWhile_append_of_pos {α : Type} (p : α → Bool) (l₁ l₂ : List α)
    (h : ∀ a ∈ l₁, p a = true) :
    (l₁ ++ l₂).dropWhile p = l₂.dropWhile p := by
  induction l₁ with
  | nil => simp
  | cons a l ih =>
      have ha := h a (List.mem_cons_self a l)
      simp only [List.cons_append, List.dropWhile_cons, ha, if_true]
      exact ih (fun b hb => h b (List.mem_cons_of_mem a hb))

theorem sum_map_mul_neg_one (l : List Int) :
    (l.map (fun s => s * (-1))).sum = -l.sum := by
  induction l with
  | nil => simp
  | cons a t ih =>
      simp only [List.map_cons, List.sum_cons, ih]
      ring

theorem sum_map_neg {α : Type} (f : α → Int) (l : List α) :
    (l.map (fun a => -(f a))).sum = -((l.map f).sum) := by
  induction l with
  | nil => simp
  | cons a t ih =>
      simp only [List.map_cons, List.sum_cons, ih]
      ring

theorem inertia_append (c : List (List Int)) (r₁ r₂ : List (List Int)) :
    inertia c (r₁ ++ r₂) = inertia c r₁ + inertia c r₂ := by
  simp [inertia, List.sum_append]

theorem inertia_flatten (c : List (List Int))
    (blocks : List (List (List Int))) :
    inertia c blocks.flatten = (blocks.map (inertia c)).sum := by
  induction blocks with
  | nil => simp [inertia]
  | cons b bs ih => simp [List.flatten_cons, inertia_append, ih]

theorem alignedFor_of_aligned {X W : List Shard} {w : Nat}
    (hal : aligned X W = true) (hw : w ∈ (X ++ W).map Shard.owner) :
    alignedFor X W w = true :=
  List.all_eq_true.mp hal w (mem_firstOccurrences.mpr hw)

theorem alignedFor_length_eq {X W : List Shard} {w : Nat}
    (h : alignedFor X W w = true) :
    (X.filter (fun s => s.owner == w)).length =
      (W.filter (fun s => s.owner == w)).length := by
  simp only [alignedFor, Bool.and_eq_true, beq_iff_eq] at h
  exact h.1

theorem map_fst_mk_none {α β : Type} (l : List α) :
    ((l.map (fun x => (x, (none : Option β)))).map Prod.fst) = l := by
  induction l with
  | nil => rfl
  | cons a t ih => simp only [List.map_cons, ih]

theorem map_fst_mk_some {α β : Type} (l : List (α × β)) :
    ((l.map (fun p => (p.1, some p.2))).map Prod.fst) = l.map Prod.fst := by
  induction l with
  | nil => rfl
  | cons a t ih => simp only [List.map_cons, ih]

theorem partsFor_map_fst {X : List Shard} {sw : Option (List Shard)} {w : Nat}
    (halign : ∀ W, sw = some W → aligned X W = true)
    (hx : w ∈ X.map Shard.owner) :
    (partsFor X sw w).map Prod.fst = X.filter (fun s => s.owner == w) := by
  cases sw with
  | none => exact map_fst_mk_none _
  | some W =>
      have hfor : alignedFor X W w = true :=
        alignedFor_of_aligned (halign W rfl) (by
          rw [List.map_append]
          exact List.mem_append_left _ hx)
      have hlen := alignedFor_length_eq hfor
      show (((X.filter (fun s => s.owner == w)).zip
          (W.filter (fun s => s.owner == w))).map
            (fun p => (p.1, some p.2))).map Prod.fst = _
      rw [map_fst_mk_some]
      exact List.map_fst_zip _ _ (le_of_eq hlen)

theorem partsFor_owner {X : List Shard} {sw : Option (List Shard)} {w : Nat} :
    ∀ p ∈ partsFor X sw w,
      p.1.owner = w ∧ ∀ q, p.2 = some q → q.owner = w := by
  intro p hp
  cases sw with
  | none =>
      simp only [partsFor] at hp
      obtain ⟨x, hx, rfl⟩ := List.mem_map.mp hp
      refine ⟨by simpa using (List.mem_filter.mp hx).2, fun q hq => ?_⟩
      cases hq
  | some W =>
      simp only [partsFor] at hp
      obtain ⟨⟨a, b⟩, hab, rfl⟩ := List.mem_map.mp hp
      obtain ⟨ha, hb⟩ := List.of_mem_zip hab
      refine ⟨by simpa using (List.mem_filter.mp ha).2, fun q hq => ?_⟩
      injection hq with h
      subst h
      simpa using (List.mem_filter.mp hb).2

theorem submit_filter_of_submits (sid : Nat)
    (wtp : List (Nat × List (Shard × Option Shard))) :
    (wtp.map (fun wf => Event.submitTask wf.1 sid)).filter Event.isSubmit =
      wtp.map (fun wf => Event.submitTask wf.1 sid) :=
  List.filter_eq_self.mpr (fun e he => by
    obtain ⟨wf, -, rfl⟩ := List.mem_map.mp he
    rfl)

theorem create_ok_spec {X : List Shard} {sw : Option (List Shard)}
    {data : DistributedDataHandler}
    (h : DistributedDataHandler.create X sw = .ok data) :
    data.workers = firstOccurrences (X.map Shard.owner) ∧
    data.worker_to_parts =
      (firstOccurrences (X.map Shard.owner)).map
        (fun w => (w, partsFor X sw w)) ∧
    data.datatype = "cupy" ∧ data.multiple = sw.isSome ∧
    ∀ W, sw = some W → aligned X W = true := by
  cases sw with
  | none =>
      simp only [DistributedDataHandler.create] at h
      cases h
      exact ⟨rfl, rfl, rfl, rfl, fun W hW => by cases hW⟩
  | some W =>
      simp only [DistributedDataHandler.create] at h
      cases hal : aligned X W with
      | false => rw [hal] at h; simp at h
      | true =>
          rw [hal] at h
          simp only [if_true] at h
          cases h
          exact ⟨rfl, rfl, rfl, rfl, fun W' hW' => by cases hW'; exact hal⟩

theorem fit_eq (self : KMeans) (X : List Shard) (sw : Option (List Shard))
    (engineFit : Nat → EngineFit) (sid : Nat) (arrival : Nat → Nat)
    (data : DistributedDataHandler)
    (hdata : DistributedDataHandler.create X sw = .ok data) :
    KMeans.fit self X sw engineFit sid arrival =
      (match raise_exception_from_futures
          (fitFutureValues engineFit data sid self.kwargs) with
       | .error e =>
           { trace := tracePrefix data sid,
             self := { self with datatype := some data.datatype },
             result := .error e }
       | .ok _ =>
         match (fitFutureValues engineFit data sid self.kwargs).head? with
         | none =>
             { trace := (tracePrefix data sid ++ [Event.commsDestroy sid]) ++
                 [Event.readFirstResult],
               self := { self with datatype := some data.datatype },
               result := .error .indexError }
         | some (.error e) =>
             { trace := (tracePrefix data sid ++ [Event.commsDestroy sid]) ++
                 [Event.readFirstResult],
               self := { self with datatype := some data.datatype },
               result := .error (.distributedFit [e]) }
         | some (.ok m) =>
             { trace := (tracePrefix data sid ++ [Event.commsDestroy sid]) ++
                 [Event.readFirstResult],
               self := { self with
                 datatype := some data.datatype,
                 local_model := some m,
                 cluster_centers_ := some m.cluster_centers_ },
               result := .ok () }) := by
  unfold KMeans.fit
  rw [hdata]
  have hm : ((data.worker_to_parts.map (fun wf =>
        (arrival wf.1, KMeans._func_fit (engineFit wf.1) sid wf.2
          data.datatype data.multiple self.kwargs))).map Prod.snd) =
      fitFutureValues engineFit data sid self.kwargs :=
    map_snd_pair _ _ _
  simp only [hm, List.length_map, tracePrefix]

/-- Shape of the trace of a `fit` round that got past the partition
assigner: session opening, then all submissions, then the barrier, then
inspection, then at most session closing and a result read. -/
theorem fit_trace_shape (self : KMeans) (X : List Shard)
    (sw : Option (List Shard)) (engineFit : Nat → EngineFit) (sid : Nat)
    (arrival : Nat → Nat) (data : DistributedDataHandler)
    (hdata : DistributedDataHandler.create X sw = .ok data) :
    ∃ rest : List Event,
      (KMeans.fit self X sw engineFit sid arrival).trace =
        (Event.commsInit sid data.workers ::
          data.worker_to_parts.map (fun wf => Event.submitTask wf.1 sid)) ++
        (Event.waitAll data.worker_to_parts.length ::
          Event.raiseCheck :: rest) ∧
      ∀ e ∈ rest, e = Event.commsDestroy sid ∨ e = Event.readFirstResult := by
  rw [fit_eq self X sw engineFit sid arrival data hdata]
  cases raise_exception_from_futures
      (fitFutureValues engineFit data sid self.kwargs) with
  | error e =>
      refine ⟨[], ?_, by simp⟩
      simp [tracePrefix, List.cons_append, List.append_assoc]
  | ok u =>
      cases (fitFutureValues engineFit data sid self.kwargs).head? with
      | none =>
          refine ⟨[Event.commsDestroy sid, Event.readFirstResult], ?_, by simp⟩
          simp [tracePrefix, List.cons_append, List.append_assoc]
      | some f =>
          cases f with
          | error e =>
              refine ⟨[Event.commsDestroy sid, Event.readFirstResult], ?_,
                by simp⟩
              simp [tracePrefix, List.cons_append, List.append_assoc]
          | ok m =>
              refine ⟨[Event.commsDestroy sid, Event.readFirstResult], ?_,
                by simp⟩
              simp [tracePrefix, List.cons_append, List.append_assoc]

/-! ## Claims -/

/-- C7: for every fitted model and sharded input, `score` returns the
negation of the global sum of the per-shard partial inertias (sums of
squared distances to the nearest centroid); for a dataset split into
shards the returned scalar equals minus the inertia of the unsplit
dataset. -/
theorem score_neg_sum_inertia (self : KMeans) (m : LocalModel)
    (X : List Shard) (h : self.local_model = some m) :
    KMeans.score self X =
      some (-((X.map (fun sh => inertia m.cluster_centers_ sh.rows)).sum)) ∧
    KMeans.score self X =
      some (-(inertia m.cluster_centers_ (concatenate (X.map Shard.rows)))) := by
  have hrun : run_parallel_scores m X =
      X.map (fun sh => -(inertia m.cluster_centers_ sh.rows)) := rfl
  have hscore : KMeans.score self X =
      some (-((X.map (fun sh => inertia m.cluster_centers_ sh.rows)).sum)) := by
    rw [KMeans.score, h, Option.map_some']
    rw [hrun, sum_map_mul_neg_one, sum_map_neg, neg_neg, neg_one_mul]
  refine ⟨hscore, ?_⟩
  rw [hscore]
  have : (X.map Shard.rows).map (inertia m.cluster_centers_) =
      X.map (fun sh => inertia m.cluster_centers_ sh.rows) := by
    simp only [List.map_map]; rfl
  rw [concatenate, inertia_flatten, this]

/-- Witness for C7 at a concrete fitted estimator and two shards. -/
theorem score_neg_sum_inertia_witness :
    exFitted.local_model = some exModel ∧
    KMeans.score exFitted [⟨0, [[1]]⟩, ⟨1, [[2], [3]]⟩] =
      some (-(inertia exModel.cluster_centers_
        (concatenate ([(⟨0, [[1]]⟩ : Shard), ⟨1, [[2], [3]]⟩].map Shard.rows)))) ∧
    KMeans.score exFitted [⟨0, [[1]]⟩, ⟨1, [[2], [3]]⟩] = some (-14) :=
  ⟨rfl, (score_neg_sum_inertia exFitted exModel _ rfl).2, by decide⟩

/-- C9: if sample weights are supplied and some worker's weight shards do
not align one-to-one and row-count-exact with that worker's feature
shards, `fit` fails with the shard-alignment error, and it does so before
any communicator session is opened or any fit task is submitted (the trace
is empty). -/
theorem fit_misaligned_weights_fail_before_session (self : KMeans)
    (X W : List Shard) (engineFit : Nat → EngineFit) (sid : Nat)
    (arrival : Nat → Nat) (w : Nat) (hw : alignedFor X W w = false) :
    (KMeans.fit self X (some W) engineFit sid arrival).result =
      .error .shardAlignment ∧
    (KMeans.fit self X (some W) engineFit sid arrival).trace = [] := by
  have hmem : w ∈ (X ++ W).map Shard.owner := by
    by_contra hnot
    have hx : X.filter (fun s => s.owner == w) = [] := by
      refine List.filter_eq_nil_iff.mpr (fun s hs hsw => hnot ?_)
      exact List.mem_map.mpr ⟨s, List.mem_append_left _ hs, by simpa using hsw⟩
    have hwfil : W.filter (fun s => s.owner == w) = [] := by
      refine List.filter_eq_nil_iff.mpr (fun s hs hsw => hnot ?_)
      exact List.mem_map.mpr ⟨s, List.mem_append_right _ hs, by simpa using hsw⟩
    simp [alignedFor, hx, hwfil] at hw
  have hal : aligned X W = false := by
    cases halb : aligned X W with
    | false => rfl
    | true =>
        have := List.all_eq_true.mp halb w (mem_firstOccurrences.mpr hmem)
        rw [hw] at this
        exact absurd this (by simp)
  constructor <;>
    simp [KMeans.fit, DistributedDataHandler.create, hal]

/-- Witness for C9: worker 0's weight shard has two rows against a
one-row feature shard. -/
theorem fit_misaligned_weights_witness :
    alignedFor [(⟨0, [[5]]⟩ : Shard)] [(⟨0, [[1], [2]]⟩ : Shard)] 0 = false ∧
    (KMeans.fit exSelf [⟨0, [[5]]⟩] (some [⟨0, [[1], [2]]⟩]) engineOK 7
        (fun _ => 0)).result = .error .shardAlignment ∧
    (KMeans.fit exSelf [⟨0, [[5]]⟩] (some [⟨0, [[1], [2]]⟩]) engineOK 7
        (fun _ => 0)).trace = [] :=
  ⟨by decide,
   (fit_misaligned_weights_fail_before_session exSelf _ _ engineOK 7
      (fun _ => 0) 0 (by decide)).1,
   (fit_misaligned_weights_fail_before_session exSelf _ _ engineOK 7
      (fun _ => 0) 0 (by decide)).2⟩

/-- C8: the communicator session is opened over exactly the set of workers
that hold at least one shard of the input: every enrolled worker owns at
least one shard, and workers with zero shards are never enrolled. -/
theorem fit_session_over_shard_owners (self : KMeans) (X : List Shard)
    (sw : Option (List Shard)) (engineFit : Nat → EngineFit) (sid : Nat)
    (arrival : Nat → Nat) (data : DistributedDataHandler)
    (hdata : DistributedDataHandler.create X sw = .ok data) :
    (KMeans.fit self X sw engineFit sid arrival).trace.head? =
      some (Event.commsInit sid data.workers) ∧
    ∀ w, w ∈ data.workers ↔ ∃ sh ∈ X, sh.owner = w := by
  obtain ⟨rest, htrace, -⟩ :=
    fit_trace_shape self X sw engineFit sid arrival data hdata
  constructor
  · rw [htrace]; rfl
  · intro w
    rw [(create_ok_spec hdata).1, mem_firstOccurrences, List.mem_map]

/-- Witness for C8: on `exX`, the session is opened over workers 0 and 1,
each of which owns a shard. -/
theorem fit_session_over_shard_owners_witness :
    DistributedDataHandler.create exX none = .ok exData ∧
    (KMeans.fit exSelf exX none engineOK 7 (fun _ => 0)).trace.head? =
      some (Event.commsInit 7 exData.workers) ∧
    (0 ∈ exData.workers ↔ ∃ sh ∈ exX, sh.owner = 0) :=
  ⟨rfl,
   (fit_session_over_shard_owners exSelf exX none engineOK 7 (fun _ => 0)
      exData rfl).1,
   (fit_session_over_shard_owners exSelf exX none engineOK 7 (fun _ => 0)
      exData rfl).2 0⟩

/-- C2: if one or more per-worker fit tasks fail, `fit` raises a single
aggregated error wrapping all per-worker causes (not just the first), and
never reports partial success as success. -/
theorem fit_aggregates_all_failures (self : KMeans) (X : List Shard)
    (sw : Option (List Shard)) (engineFit : Nat → EngineFit) (sid : Nat)
    (arrival : Nat → Nat) (data : DistributedDataHandler)
    (hdata : DistributedDataHandler.create X sw = .ok data)
    (hfail :
      (fitFutureValues engineFit data sid self.kwargs).filterMap errOf ≠ []) :
    (KMeans.fit self X sw engineFit sid arrival).result =
      .error (.distributedFit
        ((fitFutureValues engineFit data sid self.kwargs).filterMap errOf)) ∧
    ∀ u, (KMeans.fit self X sw engineFit sid arrival).result ≠ .ok u := by
  have hres : (KMeans.fit self X sw engineFit sid arrival).result =
      .error (.distributedFit
        ((fitFutureValues engineFit data sid self.kwargs).filterMap errOf)) := by
    rw [fit_eq self X sw engineFit sid arrival data hdata]
    cases herr :
        (fitFutureValues engineFit data sid self.kwargs).filterMap errOf with
    | nil => exact absurd herr hfail
    | cons e es =>
        have hr : raise_exception_from_futures
            (fitFutureValues engineFit data sid self.kwargs) =
            .error (.distributedFit (e :: es)) := by
          unfold raise_exception_from_futures
          rw [herr]
        rw [hr]
  exact ⟨hres, fun u h => by rw [hres] at h; exact Except.noConfusion h⟩

/-- Witness for C2: both workers of `exX` fail; the raised error wraps
both causes, in worker order. -/
theorem fit_aggregates_all_failures_witness :
    DistributedDataHandler.create exX none = .ok exData ∧
    (fitFutureValues (engineFail [0, 1]) exData 7 exSelf.kwargs).filterMap
      errOf = ["w0 failed", "w1 failed"] ∧
    (KMeans.fit exSelf exX none (engineFail [0, 1]) 7 (fun _ => 0)).result =
      .error (.distributedFit ["w0 failed", "w1 failed"]) :=
  ⟨rfl, rfl,
   (fit_aggregates_all_failures exSelf exX none (engineFail [0, 1]) 7
      (fun _ => 0) exData rfl (by decide)).1⟩

/-- C3: a failing `fit` publishes no distributed model: when any per-worker
task fails, `local_model` and `cluster_centers_` are left unchanged while
the aggregated error propagates. -/
theorem fit_failure_publishes_no_model (self : KMeans) (X : List Shard)
    (sw : Option (List Shard)) (engineFit : Nat → EngineFit) (sid : Nat)
    (arrival : Nat → Nat) (data : DistributedDataHandler)
    (hdata : DistributedDataHandler.create X sw = .ok data)
    (hfail :
      (fitFutureValues engineFit data sid self.kwargs).filterMap errOf ≠ []) :
    (KMeans.fit self X sw engineFit sid arrival).self.local_model =
      self.local_model ∧
    (KMeans.fit self X sw engineFit sid arrival).self.cluster_centers_ =
      self.cluster_centers_ ∧
    ∃ causes, causes ≠ [] ∧
      (KMeans.fit self X sw engineFit sid arrival).result =
        .error (.distributedFit causes) := by
  rw [fit_eq self X sw engineFit sid arrival data hdata]
  cases herr :
      (fitFutureValues engineFit data sid self.kwargs).filterMap errOf with
  | nil => exact absurd herr hfail
  | cons e es =>
      have hr : raise_exception_from_futures
          (fitFutureValues engineFit data sid self.kwargs) =
          .error (.distributedFit (e :: es)) := by
        unfold raise_exception_from_futures
        rw [herr]
      rw [hr]
      exact ⟨rfl, rfl, e :: es, List.cons_ne_nil e es, rfl⟩

/-- Witness for C3: worker 0 — the worker whose model would be selected —
fails; no model is published. -/
theorem fit_failure_publishes_no_model_witness :
    DistributedDataHandler.create exX none = .ok exData ∧
    (fitFutureValues (engineFail [0]) exData 7 exSelf.kwargs).filterMap
      errOf ≠ [] ∧
    (KMeans.fit exSelf exX none (engineFail [0]) 7 (fun _ => 0)).self.local_model =
      exSelf.local_model ∧
    (KMeans.fit exSelf exX none (engineFail [0]) 7 (fun _ => 0)).self.cluster_centers_ =
      exSelf.cluster_centers_ :=
  ⟨rfl, by decide,
   (fit_failure_publishes_no_model exSelf exX none (engineFail [0]) 7
      (fun _ => 0) exData rfl (by decide)).1,
   (fit_failure_publishes_no_model exSelf exX none (engineFail [0]) 7
      (fun _ => 0) exData rfl (by decide)).2.1⟩

/-- C4: during `fit`, all per-worker tasks are submitted before any result
is awaited (fan-out), the dispatcher then blocks at a single fan-in
barrier covering every task before inspecting any result, and no task is
submitted after the barrier (tasks are never submitted one at a time with
waits in between). -/
theorem fit_fanout_then_barrier (self : KMeans) (X : List Shard)
    (sw : Option (List Shard)) (engineFit : Nat → EngineFit) (sid : Nat)
    (arrival : Nat → Nat) (data : DistributedDataHandler)
    (hdata : DistributedDataHandler.create X sw = .ok data) :
    ((KMeans.fit self X sw engineFit sid arrival).trace.filter
        Event.isWait).length = 1 ∧
    (preBarrier (KMeans.fit self X sw engineFit sid arrival).trace).filter
        Event.isSubmit =
      data.worker_to_parts.map (fun wf => Event.submitTask wf.1 sid) ∧
    (preBarrier (KMeans.fit self X sw engineFit sid arrival).trace).filter
        Event.isInspect = [] ∧
    (postBarrier (KMeans.fit self X sw engineFit sid arrival).trace).head? =
      some (Event.waitAll data.worker_to_parts.length) ∧
    ((postBarrier (KMeans.fit self X sw engineFit sid
        arrival).trace).tail.filter Event.isSubmit) = [] := by
  obtain ⟨rest, htrace, hrest⟩ :=
    fit_trace_shape self X sw engineFit sid arrival data hdata
  set subs := data.worker_to_parts.map (fun wf => Event.submitTask wf.1 sid)
    with hsubs
  have hsubmit : ∀ e ∈ subs, Event.isSubmit e = true := by
    intro e he
    obtain ⟨wf, -, rfl⟩ := List.mem_map.mp he
    rfl
  have hpre_all : ∀ e ∈ Event.commsInit sid data.workers :: subs,
      (!Event.isWait e) = true := by
    intro e he
    rcases List.mem_cons.mp he with rfl | hm
    · rfl
    · obtain ⟨wf, -, rfl⟩ := List.mem_map.mp hm
      rfl
  have hrest_notsubmit : rest.filter Event.isSubmit = [] :=
    List.filter_eq_nil_iff.mpr (fun e he => by
      rcases hrest e he with rfl | rfl <;> simp [Event.isSubmit])
  have hrest_notwait : rest.filter Event.isWait = [] :=
    List.filter_eq_nil_iff.mpr (fun e he => by
      rcases hrest e he with rfl | rfl <;> simp [Event.isWait])
  have hpre_nowait : (Event.commsInit sid data.workers :: subs).filter
      Event.isWait = [] :=
    List.filter_eq_nil_iff.mpr (fun e he => by
      have h := hpre_all e he
      rw [Bool.not_eq_true'] at h
      simp [h])
  rw [htrace]
  have hpre : preBarrier ((Event.commsInit sid data.workers :: subs) ++
      (Event.waitAll data.worker_to_parts.length ::
        Event.raiseCheck :: rest)) =
      Event.commsInit sid data.workers :: subs := by
    rw [preBarrier, takeWhile_append_of_pos _ _ _ hpre_all]
    simp [List.takeWhile_cons, Event.isWait]
  have hpost : postBarrier ((Event.commsInit sid data.workers :: subs) ++
      (Event.waitAll data.worker_to_parts.length ::
        Event.raiseCheck :: rest)) =
      Event.waitAll data.worker_to_parts.length ::
        Event.raiseCheck :: rest := by
    rw [postBarrier, dropWhile_append_of_pos _ _ _ hpre_all]
    simp [List.dropWhile_cons, Event.isWait]
  refine ⟨?_, ?_, ?_, ?_, ?_⟩
  · rw [List.filter_append, hpre_nowait]
    simp [List.filter_cons, Event.isWait, hrest_notwait]
  · rw [hpre]
    have h0 : (Event.commsInit sid data.workers :: subs).filter
        Event.isSubmit = subs.filter Event.isSubmit := by
      simp [List.filter_cons, Event.isSubmit]
    rw [h0, List.filter_eq_self.mpr hsubmit]
  · rw [hpre]
    refine List.filter_eq_nil_iff.mpr (fun e he => ?_)
    rcases List.mem_cons.mp he with rfl | hm
    · simp [Event.isInspect]
    · obtain ⟨wf, -, rfl⟩ := List.mem_map.mp hm
      simp [Event.isInspect]
  · rw [hpost]
    rfl
  · rw [hpost]
    simp [List.filter_cons, Event.isSubmit, hrest_notsubmit]

/-- Witness for C4 on the two-worker dataset `exX`: both submissions
precede the single barrier, and nothing is inspected before it. -/
theorem fit_fanout_then_barrier_witness :
    DistributedDataHandler.create exX none = .ok exData ∧
    ((KMeans.fit exSelf exX none engineOK 7 (fun _ => 0)).trace.filter
        Event.isWait).length = 1 ∧
    (preBarrier (KMeans.fit exSelf exX none engineOK 7
        (fun _ => 0)).trace).filter Event.isSubmit =
      exData.worker_to_parts.map (fun wf => Event.submitTask wf.1 7) ∧
    (preBarrier (KMeans.fit exSelf exX none engineOK 7
        (fun _ => 0)).trace).filter Event.isInspect = [] :=
  ⟨rfl,
   (fit_fanout_then_barrier exSelf exX none engineOK 7 (fun _ => 0)
      exData rfl).1,
   (fit_fanout_then_barrier exSelf exX none engineOK 7 (fun _ => 0)
      exData rfl).2.1,
   (fit_fanout_then_barrier exSelf exX none engineOK 7 (fun _ => 0)
      exData rfl).2.2.1⟩

/-- C6: model selection after a successful fit is deterministic and
idempotent: the published model is always the first worker's in
assignment order, and the whole fit outcome is independent of the arrival
order of the per-worker futures. -/
theorem fit_selects_first_worker_model (self : KMeans) (X : List Shard)
    (sw : Option (List Shard)) (engineFit : Nat → EngineFit) (sid : Nat)
    (a₁ a₂ : Nat → Nat) (data : DistributedDataHandler) (m : LocalModel)
    (hdata : DistributedDataHandler.create X sw = .ok data)
    (hok :
      (fitFutureValues engineFit data sid self.kwargs).filterMap errOf = [])
    (hhead : (fitFutureValues engineFit data sid self.kwargs).head? =
      some (.ok m)) :
    KMeans.fit self X sw engineFit sid a₁ =
      KMeans.fit self X sw engineFit sid a₂ ∧
    (KMeans.fit self X sw engineFit sid a₁).result = .ok () ∧
    (KMeans.fit self X sw engineFit sid a₁).self.local_model = some m ∧
    (KMeans.fit self X sw engineFit sid a₁).self.cluster_centers_ =
      some m.cluster_centers_ := by
  have hr : raise_exception_from_futures
      (fitFutureValues engineFit data sid self.kwargs) = .ok () := by
    unfold raise_exception_from_futures
    rw [hok]
  have h1 := fit_eq self X sw engineFit sid a₁ data hdata
  have h2 := fit_eq self X sw engineFit sid a₂ data hdata
  rw [hr, hhead] at h1 h2
  exact ⟨h1.trans h2.symm, by rw [h1], by rw [h1], by rw [h1]⟩

/-- Witness for C6: two different arrival schedules on `exX` produce the
identical outcome, and the published model is worker 0's. -/
theorem fit_selects_first_worker_model_witness :
    DistributedDataHandler.create exX none = .ok exData ∧
    (fitFutureValues engineOK exData 7 exSelf.kwargs).filterMap errOf = [] ∧
    (fitFutureValues engineOK exData 7 exSelf.kwargs).head? =
      some (.ok { cluster_centers_ := [[0]] }) ∧
    KMeans.fit exSelf exX none engineOK 7 (fun _ => 0) =
      KMeans.fit exSelf exX none engineOK 7 (fun w => 5 - w) ∧
    (KMeans.fit exSelf exX none engineOK 7 (fun _ => 0)).self.local_model =
      some { cluster_centers_ := [[0]] } :=
  ⟨rfl, rfl, rfl,
   (fit_selects_first_worker_model exSelf exX none engineOK 7 (fun _ => 0)
      (fun w => 5 - w) exData { cluster_centers_ := [[0]] } rfl rfl rfl).1,
   (fit_selects_first_worker_model exSelf exX none engineOK 7 (fun _ => 0)
      (fun w => 5 - w) exData { cluster_centers_ := [[0]] } rfl rfl rfl).2.2.1⟩

/-- C5: `fit` submits exactly one task per assigned worker, pinned to that
worker, and each task receives the session identifier, the hyperparameters
and exactly that worker's own shards — no task is placed on a worker that
does not own the task's input shards. -/
theorem fit_one_pinned_task_per_worker (self : KMeans) (X : List Shard)
    (sw : Option (List Shard)) (engineFit : Nat → EngineFit) (sid : Nat)
    (arrival : Nat → Nat) (data : DistributedDataHandler)
    (hdata : DistributedDataHandler.create X sw = .ok data) :
    (KMeans.fit self X sw engineFit sid arrival).trace.filter
        Event.isSubmit =
      data.worker_to_parts.map (fun wf => Event.submitTask wf.1 sid) ∧
    (fitSubmissions data sid self.kwargs).map Submission.pinnedWorkers =
      data.workers.map (fun w => [w]) ∧
    data.workers.Nodup ∧
    ∀ s ∈ fitSubmissions data sid self.kwargs,
      s.sessionId = sid ∧ s.kwargs = self.kwargs ∧
      s.has_weights = data.multiple ∧
      ∃ w ∈ data.workers, s.pinnedWorkers = [w] ∧
        s.parts.map Prod.fst = X.filter (fun sh => sh.owner == w) ∧
        ∀ p ∈ s.parts, p.1.owner = w ∧ ∀ q, p.2 = some q → q.owner = w := by
  obtain ⟨hworkers, hwtp, -, -, halign⟩ := create_ok_spec hdata
  refine ⟨?_, ?_, ?_, ?_⟩
  · obtain ⟨rest, htrace, hrest⟩ :=
      fit_trace_shape self X sw engineFit sid arrival data hdata
    rw [htrace, List.filter_append]
    have ha : (Event.commsInit sid data.workers ::
        data.worker_to_parts.map (fun wf => Event.submitTask wf.1 sid)).filter
          Event.isSubmit =
        (data.worker_to_parts.map
          (fun wf => Event.submitTask wf.1 sid)).filter Event.isSubmit := by
      simp [List.filter_cons, Event.isSubmit]
    have hrestsub : rest.filter Event.isSubmit = [] :=
      List.filter_eq_nil_iff.mpr (fun e he => by
        rcases hrest e he with rfl | rfl <;> simp [Event.isSubmit])
    have hb : (Event.waitAll data.worker_to_parts.length ::
        Event.raiseCheck :: rest).filter Event.isSubmit = [] := by
      simp [List.filter_cons, Event.isSubmit, hrestsub]
    rw [ha, hb, submit_filter_of_submits, List.append_nil]
  · simp only [fitSubmissions, List.map_map, hwtp, hworkers]
    rfl
  · rw [hworkers]
    exact nodup_firstOccurrences _
  · intro s hs
    simp only [fitSubmissions, hwtp, List.map_map] at hs
    obtain ⟨w, hw, rfl⟩ := List.mem_map.mp hs
    refine ⟨rfl, rfl, rfl, w, ?_, rfl, ?_, ?_⟩
    · rw [hworkers]; exact hw
    · exact partsFor_map_fst halign (mem_firstOccurrences.mp hw)
    · exact partsFor_owner

/-- Witness for C5 on `exX`: the submissions are pinned to workers 0 and 1
and carry exactly those workers' shards. -/
theorem fit_one_pinned_task_per_worker_witness :
    DistributedDataHandler.create exX none = .ok exData ∧
    (KMeans.fit exSelf exX none engineOK 7 (fun _ => 0)).trace.filter
        Event.isSubmit =
      exData.worker_to_parts.map (fun wf => Event.submitTask wf.1 7) ∧
    (fitSubmissions exData 7 exSelf.kwargs).map Submission.pinnedWorkers =
      exData.workers.map (fun w => [w]) ∧
    exData.workers.Nodup :=
  ⟨rfl,
   (fit_one_pinned_task_per_worker exSelf exX none engineOK 7 (fun _ => 0)
      exData rfl).1,
   (fit_one_pinned_task_per_worker exSelf exX none engineOK 7 (fun _ => 0)
      exData rfl).2.1,
   (fit_one_pinned_task_per_worker exSelf exX none engineOK 7 (fun _ => 0)
      exData rfl).2.2.1⟩

/-- C1 (code bug): the source calls `raise_exception_from_futures` before
`comms.destroy()` with no try/finally, so on the aggregated per-worker
failure path the session is never closed: at this concrete input the
successful run closes the session exactly once, while the run with a
failing worker raises the aggregated error with the session still open
(zero close events in its trace). -/
theorem fit_failure_session_never_closed :
    ((KMeans.fit exSelf exX none engineOK 7 (fun _ => 0)).result = .ok () ∧
     closeCount
       (KMeans.fit exSelf exX none engineOK 7 (fun _ => 0)).trace 7 = 1) ∧
    ((KMeans.fit exSelf exX none (engineFail [1]) 7 (fun _ => 0)).result =
       .error (.distributedFit ["w1 failed"]) ∧
     closeCount (KMeans.fit exSelf exX none (engineFail [1]) 7
       (fun _ => 0)).trace 7 = 0) :=
  ⟨⟨rfl, rfl⟩, rfl, rfl⟩

/-- C10: `fit_predict(X, sample_weight, delayed)` returns the same result
as `fit(X)` followed by `predict(X, delayed)`; the supplied sample weight
is ignored and the fit proceeds as if it were `None`. -/
theorem fit_predict_ignores_sample_weight (self : KMeans) (X : List Shard)
    (sample_weight : Option (List Shard)) (delayed : Bool)
    (engineFit : Nat → EngineFit) (sid : Nat) (arrival : Nat → Nat) :
    KMeans.fit_predict self X sample_weight delayed engineFit sid arrival =
      KMeans.fit_predict self X none delayed engineFit sid arrival ∧
    KMeans.fit_predict self X sample_weight delayed engineFit sid arrival =
      (match (KMeans.fit self X none engineFit sid arrival).result with
       | .error e => .error e
       | .ok _ =>
           .ok (KMeans.predict
             (KMeans.fit self X none engineFit sid arrival).self X delayed)) :=
  ⟨rfl, rfl⟩

end CumlKMeans
